import Mathlib

/-!
Verification of the Garcon game-server control plane.

This file gives a shallow embedding, in Lean 4, of the parts of the Garcon
repository that the verified claims are about:

* the backend configuration loader (`packages/backend/src/config/index.ts`),
* the backup engine's filename scheme, listing, retention and restore
  behaviour (the live `backup.service.ts`; its current revision is not part
  of the source snapshot, so those definitions are modelled from the
  specification, as marked in their doc comments),
* the server orchestrator (`packages/backend/src/services/server.service.ts`),
  embedded as pure state-transition functions that also return the trace of
  external side effects and published websocket events,
* the maintenance scheduler's hand-rolled US-Eastern DST rule
  (`maintenance.service.ts`).

Strings are modelled by Lean `String` (a wrapper around `List Char`),
JavaScript `undefined` by `Option`, and thrown service errors by an explicit
error result type.
-/

namespace Garcon

/-- Backup types, from `packages/shared/src/types/backup.ts`
(`BackupTypeSchema = z.enum(['manual', 'auto', 'pre-update', 'pre-restore'])`). -/
inductive BackupType where
  | manual
  | auto
  | preUpdate
  | preRestore
deriving DecidableEq, Repr

/-- The string tag of each backup type as it appears in file names. -/
def BackupType.tag : BackupType → String
  | .manual => "manual"
  | .auto => "auto"
  | .preUpdate => "pre-update"
  | .preRestore => "pre-restore"

/-- Server status, from `packages/shared/src/types/server.ts`
(`ServerStatusSchema`). -/
inductive ServerStatus where
  | stopped
  | starting
  | running
  | stopping
  | error
  | updating
deriving DecidableEq, Repr

/-- Update stage, from `packages/shared/src/types/server.ts`
(`UpdateStageSchema = z.enum(['none', 'initiated', 'ready_to_apply', 'applying'])`). -/
inductive UpdateStage where
  | none
  | initiated
  | readyToApply
  | applying
deriving DecidableEq, Repr

/-! ### Backend configuration (`packages/backend/src/config/index.ts`)

`loadConfig` reads environment variables; an absent variable is `none`. -/

/-- `autoBackupOnStop: process.env['AUTO_BACKUP_ON_STOP'] !== 'false'`
(config/index.ts line 99).  JavaScript strict inequality against the string
`'false'`; `undefined` (absent) compares not-equal, hence `true`. -/
def autoBackupOnStopCfg (env : Option String) : Bool :=
  !(env == some "false")

/-- Decimal digit test, matching JavaScript's digit characters. -/
def isDigitChar (c : Char) : Bool :=
  '0' ≤ c && c ≤ '9'

/-- Value of a decimal-digit string (used to interpret `parseInt(s, 10)` on
canonical numeric strings). -/
def decValue (l : List Char) : Nat :=
  l.foldl (fun acc c => acc * 10 + (c.toNat - '0'.toNat)) 0

/-- `parseInt(s, 10)` restricted to all-digit strings; anything else is `none`
(standing for `NaN`). -/
def parseIntDec (s : String) : Option Nat :=
  if s.data ≠ [] && s.data.all isDigitChar then some (decValue s.data) else none

/-- `maxBackupsPerType: parseInt(process.env['MAX_BACKUPS_PER_TYPE'] || '5', 10)`
(config/index.ts line 98).  An absent or empty variable falls back to the
string `'5'`. -/
def maxBackupsPerTypeCfg (env : Option String) : Option Nat :=
  parseIntDec (match env with
    | some s => if s = "" then "5" else s
    | none => "5")

/-! ### Backup filename scheme

Modelled from the spec: the live `backup.service.ts` (the revision with
`restoreBackup` and per-type retention that `backup.routes.ts`,
`server.service.ts` and `maintenance.service.ts` call into) is not part of
the source snapshot — the snapshot only contains an earlier revision of the
file (which still reads the removed config key `maxBackupsPerServer` and has
no `restoreBackup`).  The scheme below follows the spec's grammar:

`backup-<sanitised-timestamp>-<type>.tar.gz`, where the sanitised timestamp
is the ISO-8601 form with `:` and `.` substituted by `-`, and parsing
reverses the substitution via the pattern
`^(\d{4}-\d{2}-\d{2}T\d{2})-(\d{2})-(\d{2})-(\d{3}Z)$`; filenames that do
not match the grammar are ignored. -/

/-- Timestamp sanitisation: `timestamp.replace(/[:.]/g, '-')`. -/
def sanitizeChar (c : Char) : Char :=
  if c == ':' || c == '.' then '-' else c

/-- Modelled from the spec: sanitised timestamp (`:` and `.` become `-`). -/
def sanitizeTimestamp (ts : String) : String :=
  ⟨ts.data.map sanitizeChar⟩

/-- Modelled from the spec: `backup-<sanitised-timestamp>-<type>.tar.gz`. -/
def getBackupFileName (ts : String) (ty : BackupType) : String :=
  ⟨"backup-".data ++ ((sanitizeTimestamp ts).data ++ ('-' :: (ty.tag.data ++ ".tar.gz".data)))⟩

/-- Strip an expected literal from the front of a character list. -/
def dropLit : List Char → List Char → Option (List Char)
  | [], l => some l
  | _ :: _, [] => Option.none
  | p :: ps, c :: cs => if c = p then dropLit ps cs else Option.none

/-- Strip an expected literal from the back of a character list. -/
def dropTail (pat l : List Char) : Option (List Char) :=
  (dropLit pat.reverse l.reverse).map List.reverse

/-- Split the `-<type>` tag off the back of the middle section of a backup
file name.  At most one of the four tags can match, so the attempt order is
irrelevant. -/
def stripTypeTag (mid : List Char) : Option (List Char × BackupType) :=
  match dropTail ('-' :: BackupType.manual.tag.data) mid with
  | some rest => some (rest, .manual)
  | Option.none =>
  match dropTail ('-' :: BackupType.auto.tag.data) mid with
  | some rest => some (rest, .auto)
  | Option.none =>
  match dropTail ('-' :: BackupType.preUpdate.tag.data) mid with
  | some rest => some (rest, .preUpdate)
  | Option.none =>
  match dropTail ('-' :: BackupType.preRestore.tag.data) mid with
  | some rest => some (rest, .preRestore)
  | Option.none => Option.none

/-- Modelled from the spec: the timestamp-reconstruction pattern
`^(\d{4}-\d{2}-\d{2}T\d{2})-(\d{2})-(\d{2})-(\d{3}Z)$`, rebuilding
`group1:group2:group3.group4`. -/
def parseSanitizedTs : List Char → Option (List Char)
  | [y1, y2, y3, y4, s1, mo1, mo2, s2, d1, d2, tC,
     h1, h2, s3, mi1, mi2, s4, se1, se2, s5, f1, f2, f3, zC] =>
    if isDigitChar y1 && isDigitChar y2 && isDigitChar y3 && isDigitChar y4 &&
       s1 == '-' && isDigitChar mo1 && isDigitChar mo2 && s2 == '-' &&
       isDigitChar d1 && isDigitChar d2 && tC == 'T' &&
       isDigitChar h1 && isDigitChar h2 && s3 == '-' &&
       isDigitChar mi1 && isDigitChar mi2 && s4 == '-' &&
       isDigitChar se1 && isDigitChar se2 && s5 == '-' &&
       isDigitChar f1 && isDigitChar f2 && isDigitChar f3 && zC == 'Z'
    then some [y1, y2, y3, y4, '-', mo1, mo2, '-', d1, d2, 'T',
               h1, h2, ':', mi1, mi2, ':', se1, se2, '.', f1, f2, f3, 'Z']
    else Option.none
  | _ => Option.none

/-- Modelled from the spec: parse a backup file name back into
`(timestamp, type)`; names not matching the grammar yield `none`. -/
def parseBackupFileName (fileName : String) : Option (String × BackupType) :=
  (dropLit "backup-".data fileName.data).bind fun rest =>
  (dropTail ".tar.gz".data rest).bind fun mid =>
  (stripTypeTag mid).bind fun p =>
  (parseSanitizedTs p.1).map fun ts => ((⟨ts⟩ : String), p.2)

/-- An ISO-8601 UTC timestamp with millisecond precision,
`YYYY-MM-DDTHH:mm:ss.SSSZ` (the shape produced by `Date.toISOString()`). -/
def isIsoTimestamp (ts : String) : Bool :=
  match ts.data with
  | [y1, y2, y3, y4, s1, mo1, mo2, s2, d1, d2, tC,
     h1, h2, s3, mi1, mi2, s4, se1, se2, s5, f1, f2, f3, zC] =>
    isDigitChar y1 && isDigitChar y2 && isDigitChar y3 && isDigitChar y4 &&
    s1 == '-' && isDigitChar mo1 && isDigitChar mo2 && s2 == '-' &&
    isDigitChar d1 && isDigitChar d2 && tC == 'T' &&
    isDigitChar h1 && isDigitChar h2 && s3 == ':' &&
    isDigitChar mi1 && isDigitChar mi2 && s4 == ':' &&
    isDigitChar se1 && isDigitChar se2 && s5 == '.' &&
    isDigitChar f1 && isDigitChar f2 && isDigitChar f3 && zC == 'Z'
  | _ => false

/-! ### Backup listing, retention and restore (modelled from the spec)

The live `backup.service.ts` is not in the source snapshot (see above), so
`listBackups` ordering, per-type retention and `restoreBackup` are modelled
from the spec: list backups sorted descending by parsed timestamp; after
each create, per type, delete the oldest entries beyond the configured cap
(`MAX_BACKUPS_PER_TYPE`, default 5); restore first creates a `pre-restore`
backup, then deletes the server data directory and extracts the archive.

The backup directory of one server is modelled as the list of its file
names; timestamps of the fixed ISO shape compare chronologically exactly as
they compare lexicographically, which is how `tsLt` orders them. -/

/-- Strict lexicographic order on character lists; on equal-shape ISO
timestamps this coincides with chronological order (`Date.getTime`). -/
def tsLtL : List Char → List Char → Bool
  | [], [] => false
  | [], _ :: _ => true
  | _ :: _, [] => false
  | a :: as, b :: bs => if a < b then true else if b < a then false else tsLtL as bs

/-- Strict chronological order on timestamp strings. -/
def tsLt (a b : String) : Bool := tsLtL a.data b.data

/-- A parsed backup record: file name plus parsed timestamp. -/
structure BackupRec where
  fileName : String
  timestamp : String
deriving DecidableEq, Repr

/-- `a` may precede `b` in the descending listing: `a`'s timestamp is not
strictly older than `b`'s. -/
def recBefore (a b : BackupRec) : Prop := tsLt a.timestamp b.timestamp = false

instance : DecidableRel recBefore := fun _ _ => instDecidableEqBool _ _

/-- Sort descending by timestamp (newest first), as `listBackups` sorts. -/
def sortDesc (l : List BackupRec) : List BackupRec := List.insertionSort recBefore l

/-- The records of one backup type among a directory's file names, in
directory order.  Files that do not parse are ignored, as in `listBackups`. -/
def recordsOfType (files : List String) (t : BackupType) : List BackupRec :=
  files.filterMap fun f =>
    match parseBackupFileName f with
    | some (ts, t') => if t' = t then some ⟨f, ts⟩ else Option.none
    | Option.none => Option.none

/-- Number of on-disk backups of one type. -/
def typeCount (files : List String) (t : BackupType) : Nat :=
  (recordsOfType files t).length

/-- Modelled from the spec: the file names of type `t` kept by retention —
the newest `cap` of that type. -/
def keptNames (cap : Nat) (files : List String) (t : BackupType) : List String :=
  ((sortDesc (recordsOfType files t)).take cap).map BackupRec.fileName

/-- Modelled from the spec: per-type retention.  For each type, the oldest
entries beyond the cap are deleted; files that do not parse as backups are
untouched. -/
def enforceRetention (cap : Nat) (files : List String) : List String :=
  files.filter fun f =>
    match parseBackupFileName f with
    | some (_, t) => decide (f ∈ keptNames cap files t)
    | Option.none => true

/-- Modelled from the spec: `createBackup` — the timestamp is taken now, the
archive is written under the generated file name, then retention is
enforced.  Returns the new file name and the resulting directory. -/
def createBackup (cap : Nat) (now : String) (ty : BackupType) (files : List String) :
    String × List String :=
  let fn := getBackupFileName now ty
  (fn, enforceRetention cap (files ++ [fn]))

/-- Boolean form of "every backup already on disk is strictly older than
`now`" (clock monotonicity for a directory listing). -/
def olderB (now : String) (f : String) : Bool :=
  match parseBackupFileName f with
  | some p => tsLt p.1 now
  | Option.none => true

/-- Whether a file name parses as a `pre-restore` backup. -/
def isPreRestoreFile (f : String) : Bool :=
  match parseBackupFileName f with
  | some (_, .preRestore) => true
  | _ => false

/-- Side-effect trace entries of the restore engine. -/
inductive RestoreAct where
  | createPreRestore (fileName : String)
  | deleteDataDir
  | extractArchive (fileName : String)
deriving DecidableEq, Repr

/-- Modelled from the spec: `restoreBackup server ts` — find the backup whose
parsed timestamp equals `ts` (else *not-found*), create a `pre-restore`
backup of the current data directory, delete the data directory, extract the
chosen archive.  Returns the pre-restore file name, the resulting backup
directory and the ordered side-effect trace. -/
def restoreBackup (cap : Nat) (now : String) (ts : String) (files : List String) :
    Option (String × List String × List RestoreAct) :=
  match files.find? (fun f => (parseBackupFileName f).map Prod.fst == some ts) with
  | Option.none => Option.none
  | some chosen =>
    let r := createBackup cap now .preRestore files
    some (r.1, r.2, [.createPreRestore r.1, .deleteDataDir, .extractArchive chosen])

/-! ### Server orchestrator (`packages/backend/src/services/server.service.ts`)

Each operation is embedded as a pure function of the in-memory server map.
External side effects (Docker calls, sidecar writes, backup creation) and
published websocket events are returned as an ordered trace.  Oracle
booleans stand for the success or failure of awaited external calls, and
`now` for `new Date().toISOString()`. -/

/-- A port mapping as in `ServerConfigSchema`. -/
structure PortMapping where
  host : Nat
  container : Nat
  protocol : String
deriving DecidableEq, Repr

/-- A template default port (`TemplateDefaultPortSchema`). -/
structure DefaultPort where
  container : Nat
  protocol : String
deriving DecidableEq, Repr

/-- A template variable with an optional default value, as read by
`importServer` (`template.variables`). -/
structure TemplateVar where
  name : String
  defaultValue : Option String
deriving DecidableEq, Repr

/-- The template fields the orchestrator reads. -/
structure Template where
  id : String
  name : String
  defaultPorts : Option (List DefaultPort)
  templateVars : Option (List TemplateVar)
  requiredFiles : Option (List String)
  stopTimeout : Nat
deriving DecidableEq, Repr

/-- The persisted server configuration fields the orchestrator reads/writes
(sidecar `.garcon.yaml`). -/
structure ServerConfig where
  id : String
  name : String
  templateId : String
  sourcePath : String
  ports : List PortMapping
  environment : List (String × String)
  updateStage : UpdateStage
deriving DecidableEq, Repr

/-- The in-memory per-server state (`interface ServerState` in
server.service.ts). -/
structure SState where
  config : ServerConfig
  status : ServerStatus
  startedAt : Option String
  updateStage : UpdateStage
  updateBackupTimestamp : Option String
deriving DecidableEq, Repr

/-- The orchestrator's server map, `Map<string, ServerState>`, modelled by
its lookup function. -/
def SMap := String → Option SState

/-- `Map.set`. -/
def SMap.set (m : SMap) (id : String) (s : SState) : SMap :=
  fun j => if j = id then some s else m j

/-- `Map.delete`. -/
def SMap.del (m : SMap) (id : String) : SMap :=
  fun j => if j = id then Option.none else m j

/-- Trace entries: published websocket events and external side effects, in
program order. -/
inductive Act where
  | statusEvt (id : String) (status : ServerStatus)
      (startedAt : Option String) (stage : Option UpdateStage)
  | updateEvt (id : String) (action : String)
  | backupCall (id : String) (ty : BackupType)
  | dockerCreate (id : String)
  | dockerStart (id : String)
  | dockerStop (id : String)
  | dockerRemove (id : String)
  | sidecarWrite (id : String) (stage : UpdateStage)
  | copyDir (src dest : String)
  | deleteDir (path : String)
deriving DecidableEq, Repr

/-- Service error kinds (`utils/errors.ts`). -/
inductive OpErr where
  | notFound
  | validation
  | stateErr
  | conflict
  | docker
  | backupFailed
deriving DecidableEq, Repr

/-- Result of one orchestrator operation: outcome, new map, trace. -/
structure OpOut where
  res : Except OpErr Unit
  map : SMap
  trace : List Act

/-- `updateStatus` (server.service.ts lines 446-452): set the status and
broadcast it together with the current `startedAt` and `updateStage`. -/
def updateStatusFn (m : SMap) (id : String) (st : ServerStatus) : SMap × List Act :=
  match m id with
  | Option.none => (m, [])
  | some s =>
    (m.set id { s with status := st },
     [.statusEvt id st s.startedAt (some s.updateStage)])

/-- `handleContainerExit` (lines 78-90): unknown ids are ignored; a `running`
or `starting` server transitions to `error` (container kept), everything else
is ignored. -/
def handleContainerExit (m : SMap) (id : String) : SMap × List Act :=
  match m id with
  | Option.none => (m, [])
  | some s =>
    if s.status = .running || s.status = .starting then
      (m.set id { s with status := .error, startedAt := Option.none },
       [.statusEvt id .error Option.none Option.none])
    else (m, [])

/-- `saveUpdateStage` (lines 454-464): set the stage in memory and in the
config, and persist the sidecar. -/
def saveUpdateStageFn (m : SMap) (id : String) (stage : UpdateStage) : SMap × List Act :=
  match m id with
  | Option.none => (m, [])
  | some s =>
    (m.set id { s with updateStage := stage, config := { s.config with updateStage := stage } },
     [.sidecarWrite id stage])

/-- `startServer` (lines 251-287): reject `running` and `updateStage ≠ none`;
publish `starting`; create and start the container; on success set
`running`/`startedAt` and publish; on failure publish `error` and rethrow. -/
def startServer (m : SMap) (id : String) (dockerOk : Bool) (now : String) : OpOut :=
  match m id with
  | Option.none => ⟨.error .notFound, m, []⟩
  | some s =>
    if s.status = .running then ⟨.error .stateErr, m, []⟩
    else if s.updateStage ≠ .none then ⟨.error .stateErr, m, []⟩
    else
      let p1 := updateStatusFn m id .starting
      let t0 := p1.2 ++ [.dockerCreate id, .dockerStart id]
      if dockerOk then
        match p1.1 id with
        | Option.none => ⟨.ok (), p1.1, t0⟩
        | some s1 =>
          ⟨.ok (), p1.1.set id { s1 with status := .running, startedAt := some now },
           t0 ++ [.statusEvt id .running (some now) Option.none]⟩
      else
        let p2 := updateStatusFn p1.1 id .error
        ⟨.error .docker, p2.1, t0 ++ p2.2⟩

/-- `stopServer` (lines 289-322): reject unless `running`; publish
`stopping`; if configured, create an `auto` backup (its failure aborts the
stop); stop the container; set `stopped`, clear `startedAt`, publish; on any
failure publish `error`. -/
def stopServer (m : SMap) (id : String) (autoBackup backupOk dockerOk : Bool) : OpOut :=
  match m id with
  | Option.none => ⟨.error .notFound, m, []⟩
  | some s =>
    if s.status ≠ .running then ⟨.error .stateErr, m, []⟩
    else
      let p1 := updateStatusFn m id .stopping
      if autoBackup then
        if backupOk then
          let t1 := p1.2 ++ [.backupCall id .auto, .dockerStop id]
          if dockerOk then
            match p1.1 id with
            | Option.none => ⟨.ok (), p1.1, t1⟩
            | some s1 =>
              ⟨.ok (), p1.1.set id { s1 with status := .stopped, startedAt := Option.none },
               t1 ++ [.statusEvt id .stopped Option.none Option.none]⟩
          else
            let p2 := updateStatusFn p1.1 id .error
            ⟨.error .docker, p2.1, t1 ++ p2.2⟩
        else
          let p2 := updateStatusFn p1.1 id .error
          ⟨.error .backupFailed, p2.1, p1.2 ++ [.backupCall id .auto] ++ p2.2⟩
      else
        let t1 := p1.2 ++ [.dockerStop id]
        if dockerOk then
          match p1.1 id with
          | Option.none => ⟨.ok (), p1.1, t1⟩
          | some s1 =>
            ⟨.ok (), p1.1.set id { s1 with status := .stopped, startedAt := Option.none },
             t1 ++ [.statusEvt id .stopped Option.none Option.none]⟩
        else
          let p2 := updateStatusFn p1.1 id .error
          ⟨.error .docker, p2.1, t1 ++ p2.2⟩

/-- `deleteServer` (lines 229-249): reject only when `running`; remove the
container, delete the server directory, drop the map entry, publish a
`deleted` membership event.  The update stage is not consulted. -/
def deleteServer (m : SMap) (id : String) : OpOut :=
  match m id with
  | Option.none => ⟨.error .notFound, m, []⟩
  | some s =>
    if s.status = .running then ⟨.error .stateErr, m, []⟩
    else
      ⟨.ok (), m.del id,
       [.dockerRemove id, .deleteDir id, .updateEvt id "deleted"]⟩

/-- `acknowledgeCrash` (lines 418-440): only legal from `error`; remove the
container, set `stopped`, publish. -/
def acknowledgeCrash (m : SMap) (id : String) : OpOut :=
  match m id with
  | Option.none => ⟨.error .notFound, m, []⟩
  | some s =>
    if s.status ≠ .error then ⟨.error .stateErr, m, []⟩
    else
      ⟨.ok (), m.set id { s with status := .stopped, startedAt := Option.none },
       [.dockerRemove id, .statusEvt id .stopped Option.none Option.none]⟩

/-- `initiateUpdate` (lines 329-358): reject when `updateStage ≠ none`; stop
first when running; create a `pre-update` backup; persist stage `initiated`;
record the backup timestamp; `updateStatus('updating')` (which broadcasts);
then broadcast `updating`/`initiated` a second time. -/
def initiateUpdate (m : SMap) (id : String)
    (autoBackup backupOk stopDockerOk preBackupOk : Bool) (backupTs : String) : OpOut :=
  match m id with
  | Option.none => ⟨.error .notFound, m, []⟩
  | some s =>
    if s.updateStage ≠ .none then ⟨.error .conflict, m, []⟩
    else
      let stopped :=
        if s.status = .running then stopServer m id autoBackup backupOk stopDockerOk
        else ⟨.ok (), m, []⟩
      match stopped.res with
      | .error e => ⟨.error e, stopped.map, stopped.trace⟩
      | .ok () =>
        let t0 := stopped.trace ++ [.backupCall id .preUpdate]
        if preBackupOk then
          let p1 := saveUpdateStageFn stopped.map id .initiated
          let m2 :=
            match p1.1 id with
            | some s1 => p1.1.set id { s1 with updateBackupTimestamp := some backupTs }
            | Option.none => p1.1
          let p2 := updateStatusFn m2 id .updating
          ⟨.ok (), p2.1,
           t0 ++ p1.2 ++ p2.2 ++ [.statusEvt id .updating Option.none (some .initiated)]⟩
        else ⟨.error .backupFailed, stopped.map, t0⟩

/-- `applyUpdate` (lines 360-394): reject unless stage `initiated`; persist
stage `applying` and broadcast it; copy the source tree; on success persist
stage `none`, clear the pre-update timestamp, set `stopped`, broadcast the
status and an `updated` membership event; on failure persist `initiated`
back and publish `error`. -/
def applyUpdate (m : SMap) (id : String) (copyOk : Bool) : OpOut :=
  match m id with
  | Option.none => ⟨.error .notFound, m, []⟩
  | some s =>
    if s.updateStage ≠ .initiated then ⟨.error .stateErr, m, []⟩
    else
      let p1 := saveUpdateStageFn m id .applying
      let t0 := p1.2 ++ [.statusEvt id .updating Option.none (some .applying),
                         .copyDir s.config.sourcePath id]
      if copyOk then
        let p2 := saveUpdateStageFn p1.1 id .none
        let m3 :=
          match p2.1 id with
          | some s2 => p2.1.set id
              { s2 with updateBackupTimestamp := Option.none, status := .stopped }
          | Option.none => p2.1
        ⟨.ok (), m3,
         t0 ++ p2.2 ++ [.statusEvt id .stopped Option.none (some .none),
                        .updateEvt id "updated"]⟩
      else
        let p2 := saveUpdateStageFn p1.1 id .initiated
        let p3 := updateStatusFn p2.1 id .error
        ⟨.error .docker, p3.1, t0 ++ p2.2 ++ p3.2⟩

/-- `cancelUpdate` (lines 396-416): reject when stage is `none`; persist
stage `none`, clear the pre-update timestamp, set `stopped`, broadcast. -/
def cancelUpdate (m : SMap) (id : String) : OpOut :=
  match m id with
  | Option.none => ⟨.error .notFound, m, []⟩
  | some s =>
    if s.updateStage = .none then ⟨.error .stateErr, m, []⟩
    else
      let p1 := saveUpdateStageFn m id .none
      let m2 :=
        match p1.1 id with
        | some s1 => p1.1.set id
            { s1 with updateBackupTimestamp := Option.none, status := .stopped }
        | Option.none => p1.1
      ⟨.ok (), m2,
       p1.2 ++ [.statusEvt id .stopped Option.none (some .none)]⟩

/-- The create-server request fields `importServer` reads
(`CreateServerRequestSchema`); `ports` is optional. -/
structure CreateReq where
  name : String
  sourcePath : String
  templateId : String
  ports : Option (List PortMapping)
  environment : List (String × String)
deriving DecidableEq, Repr

/-- Port synthesis in `importServer` (lines 182-186):
`template.defaultPorts?.map((p, index) => ({host: p.container + index,
container: p.container, protocol: p.protocol})) || []`. -/
def synthPorts (template : Template) : List PortMapping :=
  match template.defaultPorts with
  | some ps => ps.enum.map fun ip => ⟨ip.2.container + ip.1, ip.2.container, ip.2.protocol⟩
  | Option.none => []

/-- Environment defaults in `importServer` (lines 189-196): template
variables with a default value, later overlaid by request values. -/
def defaultEnvironment (template : Template) : List (String × String) :=
  match template.templateVars with
  | some vs => vs.filterMap fun v => v.defaultValue.map fun d => (v.name, d)
  | Option.none => []

/-- `importServer` (lines 154-227), success path after validation: copy the
source, build the config (`ports: request.ports || defaultPorts`), persist
the sidecar, insert the state, publish a `created` membership event. -/
def importServer (m : SMap) (req : CreateReq) (template : Template)
    (serverId : String) : OpOut :=
  let cfg : ServerConfig :=
    { id := serverId
      name := req.name
      templateId := req.templateId
      sourcePath := req.sourcePath
      ports := req.ports.getD (synthPorts template)
      environment := defaultEnvironment template ++ req.environment
      updateStage := .none }
  let st : SState :=
    { config := cfg, status := .stopped, startedAt := Option.none
      updateStage := .none, updateBackupTimestamp := Option.none }
  ⟨.ok (), m.set serverId st,
   [.copyDir req.sourcePath serverId, .sidecarWrite serverId .none,
    .updateEvt serverId "created"]⟩

/-- The restore route's state check (`backup.routes.ts`, part of the restore
endpoint): reject unknown servers, `running`/`starting` servers, and servers
whose update stage is not `none`. -/
def restoreCheck (m : SMap) (id : String) : Except OpErr Unit :=
  match m id with
  | Option.none => .error .stateErr
  | some s =>
    if s.status = .running || s.status = .starting then .error .stateErr
    else if s.updateStage ≠ .none then .error .stateErr
    else .ok ()

/-- The published `server_status` events of a trace. -/
def statusEvents (tr : List Act) : List Act :=
  tr.filter fun a =>
    match a with
    | .statusEvt _ _ _ _ => true
    | _ => false

/-! ### Maintenance scheduler DST rule (`maintenance.service.ts`)

The scheduler fires at `0 <utcHour> * * *` where `utcHour` is 8 during US
Eastern daylight time and 9 otherwise; daylight time is computed from the
second-Sunday-of-March / first-Sunday-of-November rule.  The re-arm task
runs at 00:00 UTC, so the choice of hour for a given date is evaluated at
midnight UTC of that date.

Dates are proleptic-Gregorian `(year, month (1-12), day (1-31))`; day-of-week
uses the standard days-from-civil algorithm (validated below against
concrete dates), matching JavaScript `Date.getUTCDay`. -/

/-- Days since 1970-01-01 of a Gregorian date (civil-days algorithm). -/
def daysFromCivil (y : Nat) (m : Nat) (d : Nat) : Int :=
  let y' : Nat := if m ≤ 2 then y - 1 else y
  let era : Nat := y' / 400
  let yoe : Nat := y' - era * 400
  let mp : Nat := if m > 2 then m - 3 else m + 9
  let doy : Nat := (153 * mp + 2) / 5 + d - 1
  let doe : Nat := yoe * 365 + yoe / 4 - yoe / 100 + doy
  (era * 146097 + doe : Int) - 719468

/-- Day of week, 0 = Sunday (as `Date.getUTCDay`). -/
def dayOfWeek (y m d : Nat) : Nat :=
  ((daysFromCivil y m d + 4).emod 7).toNat

/-- `getNthSundayOfMonth` (maintenance.service.ts lines 182-195), as the day
of month of the n-th Sunday: walk forward from the 1st to the first Sunday,
then advance in whole weeks. -/
def nthSundayDay (y month n : Nat) : Nat :=
  let w := dayOfWeek y month 1
  let first := if w = 0 then 1 else 8 - w
  first + 7 * (n - 1)

/-- A within-year UTC instant `(month, day, hour)` collapsed to a number so
instants compare chronologically. -/
def instVal (month day hour : Nat) : Nat :=
  (month * 32 + day) * 24 + hour

/-- `isEasternDaylightTime` (lines 164-177) evaluated at the UTC instant
`(y, month, day, hour)`: on or after the second Sunday of March 07:00 UTC
and strictly before the first Sunday of November 06:00 UTC. -/
def isEDTat (y month day hour : Nat) : Bool :=
  decide (instVal 3 (nthSundayDay y 3 2) 7 ≤ instVal month day hour) &&
  decide (instVal month day hour < instVal 11 (nthSundayDay y 11 1) 6)

/-- `get4AMEasternUTCHour` (lines 202-204) as evaluated by the daily 00:00
UTC re-arm (`scheduleRescheduleCheck`, lines 231-243): the hour the
maintenance task fires on a given date — 8 if the DST test passes at
midnight UTC of that date, else 9. -/
def fireHourUTC (y month day : Nat) : Nat :=
  if isEDTat y month day 0 then 8 else 9

/-- Follows the spec's words: the UTC hour at which it is 04:00 wall-clock
in America/Eastern on the given date, under the second-Sunday-of-March /
first-Sunday-of-November rule (offset UTC-4 in daylight time, UTC-5
otherwise, transitions at 07:00 and 06:00 UTC respectively). -/
def wallClock4amEasternUTCHour (y month day : Nat) : Nat :=
  if isEDTat y month day 8 then 8 else 9

/-- A calendar date with month and day in range (days per month not needed
for the DST theorem). -/
def validDate (month day : Nat) : Prop :=
  1 ≤ month ∧ month ≤ 12 ∧ 1 ≤ day ∧ day ≤ 31

instance (month day : Nat) : Decidable (validDate month day) := by
  unfold validDate; infer_instance

/-- The statuses the spec allows while an update stage is pending. -/
def statusOkSet (st : ServerStatus) : Prop :=
  st = .updating ∨ st = .stopped ∨ st = .error

/-- The stage/status invariant: every server whose update stage is not
`none` has status `updating`, `stopped` or `error`. -/
def stageStatusInv (m : SMap) : Prop :=
  ∀ id s, m id = some s → s.updateStage ≠ UpdateStage.none → statusOkSet s.status

/-- Concrete fixture: the built-in Valheim template's two default ports
(template data in `template.service.ts`). -/
def valheimTemplate : Template :=
  { id := "valheim", name := "Valheim Dedicated Server",
    defaultPorts := some [{ container := 2456, protocol := "udp" },
                          { container := 2457, protocol := "udp" }],
    templateVars := Option.none,
    requiredFiles := some ["valheim_server.x86_64"], stopTimeout := 30 }

/-- Concrete fixture: a server configuration. -/
def alphaConfig : ServerConfig :=
  { id := "alpha", name := "Alpha", templateId := "minecraft",
    sourcePath := "/import/alpha", ports := [], environment := [],
    updateStage := .none }

/-- Concrete fixture: an in-memory server state with the given status and
update stage (the stage mirrored into the sidecar config, as after
`saveUpdateStage`). -/
def alphaState (st : ServerStatus) (stage : UpdateStage) : SState :=
  { config := { alphaConfig with updateStage := stage }, status := st,
    startedAt := Option.none, updateStage := stage,
    updateBackupTimestamp := Option.none }

/-- Concrete fixture: a running server with a start time. -/
def alphaRunning : SState :=
  { config := alphaConfig, status := .running,
    startedAt := some "2026-01-01T00:00:00.000Z", updateStage := .none,
    updateBackupTimestamp := Option.none }

/-- Concrete fixture: a one-server map. -/
def singleMap (id : String) (s : SState) : SMap :=
  fun j => if j = id then some s else Option.none

/-- Concrete fixture: an import request that omits ports. -/
def importReqNoPorts : CreateReq :=
  { name := "Valheim", sourcePath := "/import/valheim", templateId := "valheim",
    ports := Option.none, environment := [] }

/-- Concrete fixture: the state produced by importing the Valheim request. -/
def valheimImported : SState :=
  { config :=
      { id := "valheim-1", name := "Valheim", templateId := "valheim",
        sourcePath := "/import/valheim", ports := synthPorts valheimTemplate,
        environment := [], updateStage := .none },
    status := .stopped, startedAt := Option.none, updateStage := .none,
    updateBackupTimestamp := Option.none }

/-! ## Theorems

### Filename round-trip -/

example : isIsoTimestamp "2026-03-14T09:26:53.589Z" = true := by decide

example : getBackupFileName "2026-03-14T09:26:53.589Z" .manual =
    "backup-2026-03-14T09-26-53-589Z-manual.tar.gz" := by decide

example : parseBackupFileName "backup-2026-03-14T09-26-53-589Z-pre-restore.tar.gz" =
    some ("2026-03-14T09:26:53.589Z", .preRestore) := by decide

example : parseBackupFileName "notes.txt" = Option.none := by decide

lemma dropLit_append (p l : List Char) : dropLit p (p ++ l) = some l := by
  induction p with
  | nil => rfl
  | cons c cs ih => simp [dropLit, ih]

lemma dropTail_append (pat l : List Char) : dropTail pat (l ++ pat) = some l := by
  unfold dropTail
  rw [List.reverse_append, dropLit_append]
  simp

lemma stripTypeTag_append (san : List Char) (ty : BackupType) :
    stripTypeTag (san ++ ('-' :: ty.tag.data)) = some (san, ty) := by
  cases ty
  case manual => simp only [stripTypeTag, dropTail_append]
  case auto =>
    have hM : dropTail ('-' :: BackupType.manual.tag.data)
        (san ++ ('-' :: BackupType.auto.tag.data)) = Option.none := by
      unfold dropTail; rw [List.reverse_append]; rfl
    simp only [stripTypeTag, hM, dropTail_append]
  case preUpdate =>
    have hM : dropTail ('-' :: BackupType.manual.tag.data)
        (san ++ ('-' :: BackupType.preUpdate.tag.data)) = Option.none := by
      unfold dropTail; rw [List.reverse_append]; rfl
    have hA : dropTail ('-' :: BackupType.auto.tag.data)
        (san ++ ('-' :: BackupType.preUpdate.tag.data)) = Option.none := by
      unfold dropTail; rw [List.reverse_append]; rfl
    simp only [stripTypeTag, hM, hA, dropTail_append]
  case preRestore =>
    have hM : dropTail ('-' :: BackupType.manual.tag.data)
        (san ++ ('-' :: BackupType.preRestore.tag.data)) = Option.none := by
      unfold dropTail; rw [List.reverse_append]; rfl
    have hA : dropTail ('-' :: BackupType.auto.tag.data)
        (san ++ ('-' :: BackupType.preRestore.tag.data)) = Option.none := by
      unfold dropTail; rw [List.reverse_append]; rfl
    have hU : dropTail ('-' :: BackupType.preUpdate.tag.data)
        (san ++ ('-' :: BackupType.preRestore.tag.data)) = Option.none := by
      unfold dropTail; rw [List.reverse_append]; rfl
    simp only [stripTypeTag, hM, hA, hU, dropTail_append]

lemma sanitizeChar_digit {c : Char} (h : isDigitChar c = true) : sanitizeChar c = c := by
  unfold isDigitChar at h
  rw [Bool.and_eq_true] at h
  have hne1 : c ≠ ':' := by rintro rfl; exact absurd h.2 (by decide)
  have hne2 : c ≠ '.' := by rintro rfl; exact absurd h.1 (by decide)
  simp [sanitizeChar, hne1, hne2]

lemma parse_build (san ts : List Char) (ty : BackupType)
    (hs : parseSanitizedTs san = some ts) :
    parseBackupFileName ⟨"backup-".data ++ (san ++ ('-' :: (ty.tag.data ++ ".tar.gz".data)))⟩
      = some (⟨ts⟩, ty) := by
  unfold parseBackupFileName
  have h0 : (⟨"backup-".data ++ (san ++ ('-' :: (ty.tag.data ++ ".tar.gz".data)))⟩ : String).data
      = "backup-".data ++ (san ++ ('-' :: (ty.tag.data ++ ".tar.gz".data))) := rfl
  rw [h0, dropLit_append, Option.some_bind]
  have h1 : san ++ ('-' :: (ty.tag.data ++ ".tar.gz".data))
      = (san ++ ('-' :: ty.tag.data)) ++ ".tar.gz".data := by simp
  rw [h1, dropTail_append, Option.some_bind, stripTypeTag_append, Option.some_bind, hs]
  rfl

lemma backup_roundtrip_aux (ts : String) (ty : BackupType)
    (h : isIsoTimestamp ts = true) :
    parseBackupFileName (getBackupFileName ts ty) = some (ts, ty) := by
  obtain ⟨l⟩ := ts
  rcases l with _ | ⟨y1, l⟩ <;> try exact absurd h Bool.false_ne_true
  rcases l with _ | ⟨y2, l⟩ <;> try exact absurd h Bool.false_ne_true
  rcases l with _ | ⟨y3, l⟩ <;> try exact absurd h Bool.false_ne_true
  rcases l with _ | ⟨y4, l⟩ <;> try exact absurd h Bool.false_ne_true
  rcases l with _ | ⟨s1, l⟩ <;> try exact absurd h Bool.false_ne_true
  rcases l with _ | ⟨mo1, l⟩ <;> try exact absurd h Bool.false_ne_true
  rcases l with _ | ⟨mo2, l⟩ <;> try exact absurd h Bool.false_ne_true
  rcases l with _ | ⟨s2, l⟩ <;> try exact absurd h Bool.false_ne_true
  rcases l with _ | ⟨d1, l⟩ <;> try exact absurd h Bool.false_ne_true
  rcases l with _ | ⟨d2, l⟩ <;> try exact absurd h Bool.false_ne_true
  rcases l with _ | ⟨tC, l⟩ <;> try exact absurd h Bool.false_ne_true
  rcases l with _ | ⟨h1, l⟩ <;> try exact absurd h Bool.false_ne_true
  rcases l with _ | ⟨h2, l⟩ <;> try exact absurd h Bool.false_ne_true
  rcases l with _ | ⟨s3, l⟩ <;> try exact absurd h Bool.false_ne_true
  rcases l with _ | ⟨mi1, l⟩ <;> try exact absurd h Bool.false_ne_true
  rcases l with _ | ⟨mi2, l⟩ <;> try exact absurd h Bool.false_ne_true
  rcases l with _ | ⟨s4, l⟩ <;> try exact absurd h Bool.false_ne_true
  rcases l with _ | ⟨se1, l⟩ <;> try exact absurd h Bool.false_ne_true
  rcases l with _ | ⟨se2, l⟩ <;> try exact absurd h Bool.false_ne_true
  rcases l with _ | ⟨s5, l⟩ <;> try exact absurd h Bool.false_ne_true
  rcases l with _ | ⟨f1, l⟩ <;> try exact absurd h Bool.false_ne_true
  rcases l with _ | ⟨f2, l⟩ <;> try exact absurd h Bool.false_ne_true
  rcases l with _ | ⟨f3, l⟩ <;> try exact absurd h Bool.false_ne_true
  rcases l with _ | ⟨zC, l⟩ <;> try exact absurd h Bool.false_ne_true
  rcases l with _ | ⟨w, l⟩ <;> try exact absurd h Bool.false_ne_true
  have h' : (isDigitChar y1 && isDigitChar y2 && isDigitChar y3 && isDigitChar y4 &&
      (s1 == '-') && isDigitChar mo1 && isDigitChar mo2 && (s2 == '-') &&
      isDigitChar d1 && isDigitChar d2 && (tC == 'T') &&
      isDigitChar h1 && isDigitChar h2 && (s3 == ':') &&
      isDigitChar mi1 && isDigitChar mi2 && (s4 == ':') &&
      isDigitChar se1 && isDigitChar se2 && (s5 == '.') &&
      isDigitChar f1 && isDigitChar f2 && isDigitChar f3 && (zC == 'Z')) = true := h
  simp only [Bool.and_eq_true, beq_iff_eq, and_assoc] at h'
  obtain ⟨hy1, hy2, hy3, hy4, hs1, hmo1, hmo2, hs2, hd1, hd2, htC, hh1, hh2, hs3,
    hmi1, hmi2, hs4, hse1, hse2, hs5, hf1, hf2, hf3, hzC⟩ := h'
  subst hs1 hs2 htC hs3 hs4 hs5 hzC
  have hsan : sanitizeTimestamp ⟨[y1, y2, y3, y4, '-', mo1, mo2, '-', d1, d2, 'T',
      h1, h2, ':', mi1, mi2, ':', se1, se2, '.', f1, f2, f3, 'Z']⟩ =
      ⟨[y1, y2, y3, y4, '-', mo1, mo2, '-', d1, d2, 'T',
        h1, h2, '-', mi1, mi2, '-', se1, se2, '-', f1, f2, f3, 'Z']⟩ := by
    show (⟨List.map sanitizeChar [y1, y2, y3, y4, '-', mo1, mo2, '-', d1, d2, 'T',
      h1, h2, ':', mi1, mi2, ':', se1, se2, '.', f1, f2, f3, 'Z']⟩ : String) = _
    simp only [List.map_cons, List.map_nil]
    rw [sanitizeChar_digit hy1, sanitizeChar_digit hy2, sanitizeChar_digit hy3,
      sanitizeChar_digit hy4, sanitizeChar_digit hmo1, sanitizeChar_digit hmo2,
      sanitizeChar_digit hd1, sanitizeChar_digit hd2, sanitizeChar_digit hh1,
      sanitizeChar_digit hh2, sanitizeChar_digit hmi1, sanitizeChar_digit hmi2,
      sanitizeChar_digit hse1, sanitizeChar_digit hse2, sanitizeChar_digit hf1,
      sanitizeChar_digit hf2, sanitizeChar_digit hf3]
    rfl
  have hts : parseSanitizedTs [y1, y2, y3, y4, '-', mo1, mo2, '-', d1, d2, 'T',
      h1, h2, '-', mi1, mi2, '-', se1, se2, '-', f1, f2, f3, 'Z'] =
      some [y1, y2, y3, y4, '-', mo1, mo2, '-', d1, d2, 'T',
            h1, h2, ':', mi1, mi2, ':', se1, se2, '.', f1, f2, f3, 'Z'] := by
    simp only [parseSanitizedTs]
    rw [hy1, hy2, hy3, hy4, hmo1, hmo2, hd1, hd2, hh1, hh2,
      hmi1, hmi2, hse1, hse2, hf1, hf2, hf3]
    rfl
  have hfull : getBackupFileName ⟨[y1, y2, y3, y4, '-', mo1, mo2, '-', d1, d2, 'T',
      h1, h2, ':', mi1, mi2, ':', se1, se2, '.', f1, f2, f3, 'Z']⟩ ty =
      ⟨"backup-".data ++ ([y1, y2, y3, y4, '-', mo1, mo2, '-', d1, d2, 'T',
        h1, h2, '-', mi1, mi2, '-', se1, se2, '-', f1, f2, f3, 'Z'] ++
        ('-' :: (ty.tag.data ++ ".tar.gz".data)))⟩ := by
    unfold getBackupFileName
    rw [hsan]
  rw [hfull]
  exact parse_build _ _ ty hts

/-- C2: for every ISO-8601 UTC millisecond-precision timestamp `t` and every
backup type `k` (manual, auto, pre-update, pre-restore), parsing the
generated backup filename recovers both components exactly:
`parse (filename t k) = (t, k)`. -/
theorem C2_backup_filename_roundtrip (ts : String) (ty : BackupType)
    (h : isIsoTimestamp ts = true) :
    parseBackupFileName (getBackupFileName ts ty) = some (ts, ty) :=
  backup_roundtrip_aux ts ty h

/-- Witness for C2 at a concrete timestamp and the `pre-restore` type. -/
theorem C2_backup_filename_roundtrip_witness :
    isIsoTimestamp "2026-03-14T09:26:53.589Z" = true ∧
    parseBackupFileName (getBackupFileName "2026-03-14T09:26:53.589Z" BackupType.preRestore)
      = some ("2026-03-14T09:26:53.589Z", BackupType.preRestore) :=
  ⟨by decide, C2_backup_filename_roundtrip "2026-03-14T09:26:53.589Z" BackupType.preRestore
    (by decide)⟩

/-! ### Timestamp order and retention lemmas -/

lemma tsLtL_irrefl (a : List Char) : tsLtL a a = false := by
  induction a with
  | nil => rfl
  | cons c cs ih => simp [tsLtL, ih]

lemma tsLtL_trans {a b c : List Char} (h1 : tsLtL a b = true) (h2 : tsLtL b c = true) :
    tsLtL a c = true := by
  induction a generalizing b c with
  | nil =>
    cases b with
    | nil => exact absurd h1 (by simp [tsLtL])
    | cons y ys =>
      cases c with
      | nil => exact absurd h2 (by simp [tsLtL])
      | cons z zs => simp [tsLtL]
  | cons x xs ih =>
    cases b with
    | nil => exact absurd h1 (by simp [tsLtL])
    | cons y ys =>
      cases c with
      | nil => exact absurd h2 (by simp [tsLtL])
      | cons z zs =>
        simp only [tsLtL] at h1 h2 ⊢
        by_cases hxy : x < y
        · by_cases hyz : y < z
          · rw [if_pos (lt_trans hxy hyz)]
          · by_cases hzy : z < y
            · rw [if_neg hyz, if_pos hzy] at h2
              exact absurd h2 Bool.false_ne_true
            · have he : y = z := le_antisymm (not_lt.mp hzy) (not_lt.mp hyz)
              subst he
              rw [if_pos hxy]
        · by_cases hyx : y < x
          · rw [if_neg hxy, if_pos hyx] at h1
            exact absurd h1 Bool.false_ne_true
          · have he : x = y := le_antisymm (not_lt.mp hyx) (not_lt.mp hxy)
            subst he
            rw [if_neg hxy, if_neg hyx] at h1
            by_cases hxz : x < z
            · rw [if_pos hxz]
            · by_cases hzx : z < x
              · rw [if_neg hxz, if_pos hzx] at h2
                exact absurd h2 Bool.false_ne_true
              · rw [if_neg hxz, if_neg hzx] at h2 ⊢
                exact ih h1 h2

lemma tsLtL_asymm {a b : List Char} (h : tsLtL a b = true) : tsLtL b a = false := by
  by_contra hc
  have hba : tsLtL b a = true := by
    cases hx : tsLtL b a with
    | true => rfl
    | false => exact absurd hx hc
  have := tsLtL_trans h hba
  rw [tsLtL_irrefl] at this
  exact Bool.noConfusion this

lemma tsLtL_conn {a b : List Char} (h1 : tsLtL a b = false) (h2 : tsLtL b a = false) :
    a = b := by
  induction a generalizing b with
  | nil =>
    cases b with
    | nil => rfl
    | cons y ys => exact absurd h1 (by simp [tsLtL])
  | cons x xs ih =>
    cases b with
    | nil => exact absurd h2 (by simp [tsLtL])
    | cons y ys =>
      simp only [tsLtL] at h1 h2
      by_cases hxy : x < y
      · rw [if_pos hxy] at h1
        exact absurd h1 (by decide)
      · by_cases hyx : y < x
        · rw [if_pos hyx] at h2
          exact absurd h2 (by decide)
        · have he : x = y := le_antisymm (not_lt.mp hyx) (not_lt.mp hxy)
          subst he
          rw [if_neg hxy, if_neg hyx] at h1 h2
          rw [ih h1 h2]

lemma recBefore_total : ∀ a b : BackupRec, recBefore a b ∨ recBefore b a := by
  intro a b
  unfold recBefore tsLt
  cases h : tsLtL a.timestamp.data b.timestamp.data with
  | false => exact Or.inl rfl
  | true => exact Or.inr (tsLtL_asymm h)

lemma recBefore_trans : ∀ a b c : BackupRec,
    recBefore a b → recBefore b c → recBefore a c := by
  intro a b c hab hbc
  unfold recBefore tsLt at hab hbc ⊢
  cases hba : tsLtL b.timestamp.data a.timestamp.data with
  | true =>
    cases hac : tsLtL a.timestamp.data c.timestamp.data with
    | false => rfl
    | true =>
      have := tsLtL_trans hba hac
      rw [hbc] at this
      exact Bool.noConfusion this
  | false =>
    rw [tsLtL_conn hab hba]
    exact hbc

lemma recordsOfType_spec {r : BackupRec} {files : List String} {t : BackupType}
    (h : r ∈ recordsOfType files t) :
    r.fileName ∈ files ∧ parseBackupFileName r.fileName = some (r.timestamp, t) := by
  unfold recordsOfType at h
  rw [List.mem_filterMap] at h
  obtain ⟨f, hf, hmatch⟩ := h
  rcases hp : parseBackupFileName f with _ | ⟨ts, t'⟩ <;> rw [hp] at hmatch
  · exact absurd hmatch (by simp)
  · by_cases ht : t' = t
    · simp only [ht, if_pos rfl] at hmatch
      obtain rfl := Option.some.inj hmatch
      subst ht
      exact ⟨hf, hp⟩
    · simp [ht] at hmatch

lemma recordsOfType_append (l1 l2 : List String) (t : BackupType) :
    recordsOfType (l1 ++ l2) t = recordsOfType l1 t ++ recordsOfType l2 t := by
  unfold recordsOfType
  exact List.filterMap_append l1 l2 _

lemma map_fileName_sublist (files : List String) (t : BackupType) :
    List.Sublist ((recordsOfType files t).map BackupRec.fileName) files := by
  induction files with
  | nil => simp [recordsOfType]
  | cons f fs ih =>
    unfold recordsOfType at ih ⊢
    rw [List.filterMap_cons]
    rcases parseBackupFileName f with _ | ⟨ts, t'⟩
    · exact ih.cons f
    · by_cases ht : t' = t
      · simp only [ht, if_pos rfl, List.map_cons]
        exact ih.cons₂ f
      · simp only [if_neg ht]
        exact ih.cons f

lemma sortDesc_perm (l : List BackupRec) : List.Perm (sortDesc l) l :=
  List.perm_insertionSort recBefore l

lemma sortDesc_sorted (l : List BackupRec) : List.Sorted recBefore (sortDesc l) := by
  haveI : IsTotal BackupRec recBefore := ⟨recBefore_total⟩
  haveI : IsTrans BackupRec recBefore := ⟨fun a b c => recBefore_trans a b c⟩
  exact List.sorted_insertionSort recBefore l

lemma olderB_spec {now f : String} {ts : String} {t : BackupType}
    (h : olderB now f = true) (hp : parseBackupFileName f = some (ts, t)) :
    tsLt ts now = true := by
  unfold olderB at h
  rw [hp] at h
  exact h

lemma fn_not_mem {now : String} {ty : BackupType} {files : List String}
    (hIso : isIsoTimestamp now = true) (hall : ∀ f ∈ files, olderB now f = true) :
    getBackupFileName now ty ∉ files := by
  intro hmem
  have h := hall _ hmem
  simp only [olderB, backup_roundtrip_aux now ty hIso, tsLt] at h
  rw [tsLtL_irrefl] at h
  exact Bool.noConfusion h

lemma records_all_older {now : String} {files : List String} {t : BackupType}
    (hall : ∀ f ∈ files, olderB now f = true) :
    ∀ r ∈ recordsOfType files t, tsLt r.timestamp now = true := by
  intro r hr
  obtain ⟨hf, hp⟩ := recordsOfType_spec hr
  exact olderB_spec (hall _ hf) hp

lemma recordsOfType_singleton_new (now : String) (ty : BackupType)
    (hIso : isIsoTimestamp now = true) :
    recordsOfType [getBackupFileName now ty] ty = [⟨getBackupFileName now ty, now⟩] := by
  unfold recordsOfType
  rw [List.filterMap_cons]
  simp only [backup_roundtrip_aux now ty hIso]
  simp [recordsOfType]

lemma new_record_mem {now : String} {ty : BackupType} (files : List String)
    (hIso : isIsoTimestamp now = true) :
    (⟨getBackupFileName now ty, now⟩ : BackupRec) ∈
      recordsOfType (files ++ [getBackupFileName now ty]) ty := by
  rw [recordsOfType_append, recordsOfType_singleton_new now ty hIso]
  simp

lemma new_file_kept (cap : Nat) (now : String) (ty : BackupType) (files : List String)
    (hIso : isIsoTimestamp now = true) (hall : ∀ f ∈ files, olderB now f = true)
    (hcap : 1 ≤ cap) :
    getBackupFileName now ty ∈ keptNames cap (files ++ [getBackupFileName now ty]) ty := by
  have hx_mem := @new_record_mem now ty files hIso
  set fn := getBackupFileName now ty with hfn
  set recs := recordsOfType (files ++ [fn]) ty with hrecs
  set x : BackupRec := ⟨fn, now⟩ with hx
  have hperm := sortDesc_perm recs
  have hx_sorted : x ∈ sortDesc recs := hperm.mem_iff.mpr hx_mem
  have hsplit := List.take_append_drop cap (sortDesc recs)
  have hx_td : x ∈ (sortDesc recs).take cap ++ (sortDesc recs).drop cap := by
    rw [hsplit]; exact hx_sorted
  unfold keptNames
  rcases List.mem_append.mp hx_td with htake | hdrop
  · exact List.mem_map.mpr ⟨x, htake, rfl⟩
  · have hlenpos : 0 < (sortDesc recs).length :=
      List.length_pos.mpr (List.ne_nil_of_mem hx_sorted)
    have htake_len : 0 < ((sortDesc recs).take cap).length := by
      rw [List.length_take]; omega
    obtain ⟨g, hg⟩ := List.exists_mem_of_ne_nil _ (List.ne_nil_of_length_pos htake_len)
    by_cases hgx : g = x
    · subst hgx
      exact List.mem_map.mpr ⟨x, hg, rfl⟩
    · exfalso
      have hg_recs : g ∈ recs := hperm.mem_iff.mp ((List.take_subset _ _) hg)
      have hg_files : g ∈ recordsOfType files ty := by
        rw [hrecs, recordsOfType_append, recordsOfType_singleton_new now ty hIso] at hg_recs
        rcases List.mem_append.mp hg_recs with h | h
        · exact h
        · rw [List.mem_singleton] at h
          exact absurd h hgx
      have hglt : tsLt g.timestamp now = true := records_all_older hall g hg_files
      have hpw : List.Pairwise recBefore (sortDesc recs) := sortDesc_sorted recs
      rw [← hsplit] at hpw
      have hcross := (List.pairwise_append.mp hpw).2.2
      have hrb := hcross g hg x hdrop
      unfold recBefore at hrb
      rw [show x.timestamp = now from rfl] at hrb
      rw [hglt] at hrb
      exact Bool.noConfusion hrb

lemma createBackup_mem (cap : Nat) (now : String) (ty : BackupType) (files : List String)
    (hIso : isIsoTimestamp now = true) (hall : ∀ f ∈ files, olderB now f = true)
    (hcap : 1 ≤ cap) :
    (createBackup cap now ty files).1 ∈ (createBackup cap now ty files).2 := by
  unfold createBackup enforceRetention
  apply List.mem_filter.mpr
  refine ⟨List.mem_append_right _ (List.mem_singleton.mpr rfl), ?_⟩
  simp only [backup_roundtrip_aux now ty hIso]
  exact decide_eq_true (new_file_kept cap now ty files hIso hall hcap)

lemma retention_type_count (cap : Nat) (files' : List String) (hN : files'.Nodup)
    (t : BackupType) : typeCount (enforceRetention cap files') t ≤ cap := by
  have hsub : ∀ f ∈ (recordsOfType (enforceRetention cap files') t).map BackupRec.fileName,
      f ∈ keptNames cap files' t := by
    intro f hf
    rw [List.mem_map] at hf
    obtain ⟨r, hr, rfl⟩ := hf
    obtain ⟨hmem, hp⟩ := recordsOfType_spec hr
    have hpred := (List.mem_filter.mp hmem).2
    simp only [hp] at hpred
    exact of_decide_eq_true hpred
  have hnodup_res : (enforceRetention cap files').Nodup := List.Nodup.filter _ hN
  have hnodup_names :
      ((recordsOfType (enforceRetention cap files') t).map BackupRec.fileName).Nodup :=
    List.Nodup.sublist (map_fileName_sublist _ t) hnodup_res
  have hsubperm := List.subperm_of_subset hnodup_names hsub
  have hlen := hsubperm.length_le
  rw [List.length_map] at hlen
  have hkept : (keptNames cap files' t).length ≤ cap := by
    unfold keptNames
    rw [List.length_map, List.length_take]
    exact min_le_left _ _
  exact le_trans hlen hkept

lemma retention_deleted_oldest (cap : Nat) (files' : List String) :
    ∀ f ∈ files', f ∉ enforceRetention cap files' →
    ∃ ts t, parseBackupFileName f = some (ts, t) ∧
      cap < typeCount files' t ∧
      ∀ g ∈ enforceRetention cap files', ∀ ts',
        parseBackupFileName g = some (ts', t) → tsLt ts' ts = false := by
  intro f hf hfnot
  have hpred : (match parseBackupFileName f with
      | some (_, t) => decide (f ∈ keptNames cap files' t)
      | Option.none => true) = false := by
    cases hc : (match parseBackupFileName f with
      | some (_, t) => decide (f ∈ keptNames cap files' t)
      | Option.none => true) with
    | false => rfl
    | true =>
      exact absurd (List.mem_filter.mpr ⟨hf, hc⟩) hfnot
  rcases hp : parseBackupFileName f with _ | ⟨ts, t⟩
  · rw [hp] at hpred
    exact absurd hpred (by simp)
  · rw [hp] at hpred
    have hnotkept : f ∉ keptNames cap files' t := of_decide_eq_false hpred
    refine ⟨ts, t, rfl, ?_, ?_⟩
    all_goals
      have hrf : (⟨f, ts⟩ : BackupRec) ∈ recordsOfType files' t := by
        unfold recordsOfType
        rw [List.mem_filterMap]
        exact ⟨f, hf, by rw [hp]; simp⟩
    all_goals
      have hrf_sorted : (⟨f, ts⟩ : BackupRec) ∈ sortDesc (recordsOfType files' t) :=
        (sortDesc_perm _).mem_iff.mpr hrf
    all_goals
      have hsplit := List.take_append_drop cap (sortDesc (recordsOfType files' t))
    all_goals
      have hrf_td : (⟨f, ts⟩ : BackupRec) ∈
          (sortDesc (recordsOfType files' t)).take cap ++
          (sortDesc (recordsOfType files' t)).drop cap := by
        rw [hsplit]; exact hrf_sorted
    all_goals
      have hdrop : (⟨f, ts⟩ : BackupRec) ∈ (sortDesc (recordsOfType files' t)).drop cap := by
        rcases List.mem_append.mp hrf_td with htake | hd
        · exact absurd (List.mem_map.mpr ⟨_, htake, rfl⟩) hnotkept
        · exact hd
    · have hlen : (sortDesc (recordsOfType files' t)).length = typeCount files' t :=
        (sortDesc_perm _).length_eq
      have hdroplen : 0 < ((sortDesc (recordsOfType files' t)).drop cap).length :=
        List.length_pos.mpr (List.ne_nil_of_mem hdrop)
      rw [List.length_drop] at hdroplen
      omega
    · intro g hg ts' hpg
      have hpredg := (List.mem_filter.mp hg).2
      simp only [hpg] at hpredg
      have hkg : g ∈ keptNames cap files' t := of_decide_eq_true hpredg
      obtain ⟨rg, hrg_take, hrg_name⟩ := List.mem_map.mp hkg
      have hrg_rec : rg ∈ recordsOfType files' t :=
        (sortDesc_perm _).mem_iff.mp ((List.take_subset _ _) hrg_take)
      obtain ⟨-, hpg'⟩ := recordsOfType_spec hrg_rec
      rw [hrg_name, hpg] at hpg'
      simp only [Option.some.injEq, Prod.mk.injEq, and_true] at hpg'
      have hts' : rg.timestamp = ts' := hpg'.symm
      have hpw : List.Pairwise recBefore (sortDesc (recordsOfType files' t)) :=
        sortDesc_sorted _
      rw [← hsplit] at hpw
      have hcross := (List.pairwise_append.mp hpw).2.2
      have hrb := hcross rg hrg_take _ hdrop
      unfold recBefore at hrb
      rw [hts'] at hrb
      exact hrb

/-- C1: after every successful `createBackup`, the number of on-disk backups
of that server of each backup type does not exceed the configured cap
(`MAX_BACKUPS_PER_TYPE`, default 5 per server per type); retention deletes
only the oldest excess backups (every deleted backup is at least as old as
every kept backup of its type, and deletion happens only when the type's
count exceeded the cap); and the just-created backup is kept whenever the
cap admits at least one backup. -/
theorem C1_retention_cap (cap : Nat) (now : String) (ty : BackupType) (files : List String)
    (hIso : isIsoTimestamp now = true) (hNodup : files.Nodup)
    (hall : ∀ f ∈ files, olderB now f = true) :
    maxBackupsPerTypeCfg Option.none = some 5 ∧
    (∀ t, typeCount (createBackup cap now ty files).2 t ≤ cap) ∧
    (1 ≤ cap → (createBackup cap now ty files).1 ∈ (createBackup cap now ty files).2) ∧
    (∀ f ∈ files ++ [(createBackup cap now ty files).1],
      f ∉ (createBackup cap now ty files).2 →
      ∃ ts t, parseBackupFileName f = some (ts, t) ∧
        cap < typeCount (files ++ [(createBackup cap now ty files).1]) t ∧
        ∀ g ∈ (createBackup cap now ty files).2, ∀ ts',
          parseBackupFileName g = some (ts', t) → tsLt ts' ts = false) := by
  have hfn : getBackupFileName now ty ∉ files := fn_not_mem hIso hall
  have hN' : (files ++ [getBackupFileName now ty]).Nodup := by
    rw [List.nodup_append]
    refine ⟨hNodup, List.nodup_singleton _, ?_⟩
    intro a ha hb
    rw [List.mem_singleton] at hb
    subst hb
    exact hfn ha
  refine ⟨by decide, ?_, ?_, ?_⟩
  · intro t
    exact retention_type_count cap _ hN' t
  · intro hcap
    exact createBackup_mem cap now ty files hIso hall hcap
  · intro f hf hnot
    exact retention_deleted_oldest cap (files ++ [(createBackup cap now ty files).1]) f hf hnot

/-- Witness for C1: two older manual backups, cap 1; after the create the
per-type count is at most 1 and the new file survives. -/
theorem C1_retention_cap_witness :
    isIsoTimestamp "2026-01-03T00:00:00.000Z" = true ∧
    ["backup-2026-01-01T00-00-00-000Z-manual.tar.gz",
     "backup-2026-01-02T00-00-00-000Z-manual.tar.gz"].Nodup ∧
    (∀ f ∈ ["backup-2026-01-01T00-00-00-000Z-manual.tar.gz",
            "backup-2026-01-02T00-00-00-000Z-manual.tar.gz"],
      olderB "2026-01-03T00:00:00.000Z" f = true) ∧
    (∀ t, typeCount (createBackup 1 "2026-01-03T00:00:00.000Z" BackupType.manual
      ["backup-2026-01-01T00-00-00-000Z-manual.tar.gz",
       "backup-2026-01-02T00-00-00-000Z-manual.tar.gz"]).2 t ≤ 1) :=
  ⟨by decide, by decide, by decide,
    (C1_retention_cap 1 "2026-01-03T00:00:00.000Z" BackupType.manual
      ["backup-2026-01-01T00-00-00-000Z-manual.tar.gz",
       "backup-2026-01-02T00-00-00-000Z-manual.tar.gz"]
      (by decide) (by decide) (by decide)).2.1⟩

lemma filter_new_single (pred pnew : String → Bool) (files : List String) (fn : String)
    (hnewkeep : pred fn = true) (hnewp : pnew fn = true)
    (hold : ∀ f ∈ files, pnew f = false) :
    ((files ++ [fn]).filter pred).filter pnew = [fn] := by
  rw [List.filter_filter, List.filter_append]
  have h1 : List.filter (fun a => pnew a && pred a) files = [] := by
    rw [List.filter_eq_nil_iff]
    intro a ha hc
    rw [Bool.and_eq_true, hold a ha] at hc
    exact Bool.noConfusion hc.1
  have h2 : List.filter (fun a => pnew a && pred a) [fn] = [fn] := by
    simp [hnewkeep, hnewp]
  rw [h1, h2, List.nil_append]

/-- C7: a restore first creates a `pre-restore` backup, then deletes the
server data directory and extracts the chosen archive (in that order), and
every successful restore leaves exactly one new `pre-restore` backup, whose
timestamp is strictly greater than the restored-from timestamp. -/
theorem C7_restore_safety (cap : Nat) (now ts : String) (files : List String)
    (hIso : isIsoTimestamp now = true)
    (hall : ∀ f ∈ files, olderB now f = true) (hcap : 1 ≤ cap)
    (chosen : String)
    (hfind : files.find? (fun f => (parseBackupFileName f).map Prod.fst == some ts)
      = some chosen) :
    ∃ fn files',
      restoreBackup cap now ts files = some (fn, files',
        [RestoreAct.createPreRestore fn, RestoreAct.deleteDataDir,
         RestoreAct.extractArchive chosen]) ∧
      fn = getBackupFileName now BackupType.preRestore ∧
      parseBackupFileName fn = some (now, BackupType.preRestore) ∧
      tsLt ts now = true ∧
      files'.filter (fun f => isPreRestoreFile f && decide (f ∉ files)) = [fn] := by
  have hlt : tsLt ts now = true := by
    have hpred := List.find?_some hfind
    have hmem := List.mem_of_find?_eq_some hfind
    rw [beq_iff_eq] at hpred
    rcases hp : parseBackupFileName chosen with _ | ⟨ts0, t0⟩
    · rw [hp] at hpred
      exact absurd hpred (by simp)
    · rw [hp] at hpred
      simp only [Option.map_some', Option.some.injEq] at hpred
      rw [← hpred]
      exact olderB_spec (hall _ hmem) hp
  refine ⟨getBackupFileName now BackupType.preRestore,
    (createBackup cap now BackupType.preRestore files).2, ?_, rfl,
    backup_roundtrip_aux now BackupType.preRestore hIso, hlt, ?_⟩
  · unfold restoreBackup
    rw [hfind]
    rfl
  · have hfn : getBackupFileName now BackupType.preRestore ∉ files := fn_not_mem hIso hall
    apply filter_new_single
    · simp only [backup_roundtrip_aux now BackupType.preRestore hIso]
      exact decide_eq_true (new_file_kept cap now BackupType.preRestore files hIso hall hcap)
    · rw [Bool.and_eq_true]
      constructor
      · simp only [isPreRestoreFile, backup_roundtrip_aux now BackupType.preRestore hIso]
      · exact decide_eq_true hfn
    · intro f hf
      simp [hf]

/-- Witness for C7: one manual backup on disk, restored from its timestamp. -/
theorem C7_restore_safety_witness :
    isIsoTimestamp "2026-01-02T00:00:00.000Z" = true ∧
    (∀ f ∈ ["backup-2026-01-01T00-00-00-000Z-manual.tar.gz"],
      olderB "2026-01-02T00:00:00.000Z" f = true) ∧
    ["backup-2026-01-01T00-00-00-000Z-manual.tar.gz"].find?
      (fun f => (parseBackupFileName f).map Prod.fst == some "2026-01-01T00:00:00.000Z")
      = some "backup-2026-01-01T00-00-00-000Z-manual.tar.gz" ∧
    (∃ fn files',
      restoreBackup 5 "2026-01-02T00:00:00.000Z" "2026-01-01T00:00:00.000Z"
        ["backup-2026-01-01T00-00-00-000Z-manual.tar.gz"] = some (fn, files',
        [RestoreAct.createPreRestore fn, RestoreAct.deleteDataDir,
         RestoreAct.extractArchive "backup-2026-01-01T00-00-00-000Z-manual.tar.gz"]) ∧
      fn = getBackupFileName "2026-01-02T00:00:00.000Z" BackupType.preRestore ∧
      parseBackupFileName fn = some ("2026-01-02T00:00:00.000Z", BackupType.preRestore) ∧
      tsLt "2026-01-01T00:00:00.000Z" "2026-01-02T00:00:00.000Z" = true ∧
      files'.filter (fun f => isPreRestoreFile f &&
        decide (f ∉ ["backup-2026-01-01T00-00-00-000Z-manual.tar.gz"])) = [fn]) :=
  ⟨by decide, by decide, by decide,
    C7_restore_safety 5 "2026-01-02T00:00:00.000Z" "2026-01-01T00:00:00.000Z"
      ["backup-2026-01-01T00-00-00-000Z-manual.tar.gz"] (by decide) (by decide)
      (by decide) "backup-2026-01-01T00-00-00-000Z-manual.tar.gz" (by decide)⟩

/-! ### Orchestrator claims -/

/-- C9: a container-exit callback for a server id that is not in the
orchestrator's in-memory map leaves the state entirely unchanged and
publishes no event. -/
theorem C9_unknown_exit_noop (m : SMap) (id : String) (h : m id = Option.none) :
    handleContainerExit m id = (m, []) := by
  unfold handleContainerExit
  rw [h]

/-- Witness for C9 on the empty server map. -/
theorem C9_unknown_exit_noop_witness :
    ((fun _ => Option.none : SMap) "ghost" = Option.none) ∧
    handleContainerExit (fun _ => Option.none) "ghost" = ((fun _ => Option.none : SMap), []) :=
  ⟨rfl, C9_unknown_exit_noop (fun _ => Option.none) "ghost" rfl⟩

/-- C10: auto-backup-on-stop is enabled unless `AUTO_BACKUP_ON_STOP` is
exactly the string `'false'`; with any other value (or unset) a stop of a
running server attempts an `auto` backup before stopping the backend. -/
theorem C10_auto_backup_on_stop (env : Option String) (henv : env ≠ some "false") :
    autoBackupOnStopCfg env = true ∧
    autoBackupOnStopCfg (some "false") = false ∧
    (∀ (m : SMap) (id : String) (s : SState), m id = some s → s.status = .running →
      ∀ backupOk dockerOk,
        (stopServer m id (autoBackupOnStopCfg env) backupOk dockerOk).trace.take 2 =
          [Act.statusEvt id .stopping s.startedAt (some s.updateStage),
           Act.backupCall id .auto]) := by
  have hcfg : autoBackupOnStopCfg env = true := by
    unfold autoBackupOnStopCfg
    simp only [Bool.not_eq_true', beq_eq_false_iff_ne, ne_eq]
    exact henv
  refine ⟨hcfg, by decide, ?_⟩
  intro m id s hm hrun backupOk dockerOk
  unfold stopServer updateStatusFn
  rw [hm, hcfg]
  cases backupOk <;> cases dockerOk <;> simp [hrun, SMap.set, List.take]

/-- Witness for C10 with `AUTO_BACKUP_ON_STOP='0'` and a running server. -/
theorem C10_auto_backup_on_stop_witness :
    (some "0" ≠ some "false") ∧
    singleMap "alpha" alphaRunning "alpha" = some alphaRunning ∧
    (stopServer (singleMap "alpha" alphaRunning) "alpha"
        (autoBackupOnStopCfg (some "0")) true true).trace.take 2 =
      [Act.statusEvt "alpha" .stopping (some "2026-01-01T00:00:00.000Z") (some .none),
       Act.backupCall "alpha" .auto] :=
  ⟨by decide, rfl,
    (C10_auto_backup_on_stop (some "0") (by decide)).2.2
      (singleMap "alpha" alphaRunning) "alpha" alphaRunning rfl rfl true true⟩

/-- C5 fails as stated: the synthesised host port is the container port plus
the position index, so the second default port of a two-port template maps
host 2458 to container 2457 (`host ≠ container`). -/
theorem C5_counterexample :
    synthPorts valheimTemplate =
      [{ host := 2456, container := 2456, protocol := "udp" },
       { host := 2458, container := 2457, protocol := "udp" }] ∧
    ¬ (∀ p ∈ synthPorts valheimTemplate, p.host = p.container) := by
  constructor
  · rfl
  · intro hall
    have := hall { host := 2458, container := 2457, protocol := "udp" } (by decide)
    exact absurd this (by decide)

/-- C5 (amended): when the request omits ports, `importServer` maps the
template's default port at position `i` to a mapping with the same container
port and protocol but host port `container + i` (so only position 0 gets
`host = container`). -/
theorem C5_import_ports (m : SMap) (req : CreateReq) (template : Template)
    (serverId : String) (s' : SState) (dps : List DefaultPort)
    (hports : req.ports = Option.none)
    (hdp : template.defaultPorts = some dps)
    (hres : (importServer m req template serverId).map serverId = some s') :
    s'.config.ports = synthPorts template ∧
    ∀ (i : Nat) (dp : DefaultPort), dps[i]? = some dp →
      s'.config.ports[i]? = some { host := dp.container + i,
                                   container := dp.container,
                                   protocol := dp.protocol } := by
  have hs' : s'.config.ports = synthPorts template := by
    simp only [importServer, SMap.set] at hres
    rw [if_pos trivial] at hres
    obtain rfl := Option.some.inj hres
    simp [hports]
  refine ⟨hs', ?_⟩
  intro i dp hdpi
  rw [hs']
  simp only [synthPorts, hdp]
  rw [List.getElem?_map, List.getElem?_enum, hdpi]
  rfl

/-- Witness for C5 (amended) on the Valheim template: position 1 maps host
2458 to container 2457. -/
theorem C5_import_ports_witness :
    importReqNoPorts.ports = Option.none ∧
    valheimTemplate.defaultPorts = some [⟨2456, "udp"⟩, ⟨2457, "udp"⟩] ∧
    (importServer (fun _ => Option.none) importReqNoPorts valheimTemplate
      "valheim-1").map "valheim-1" = some valheimImported ∧
    valheimImported.config.ports[1]? =
      some { host := 2458, container := 2457, protocol := "udp" } :=
  ⟨rfl, rfl, by decide,
    (C5_import_ports (fun _ => Option.none) importReqNoPorts valheimTemplate
      "valheim-1" valheimImported [⟨2456, "udp"⟩, ⟨2457, "udp"⟩] rfl rfl
      (by decide)).2 1 ⟨2457, "udp"⟩ rfl⟩

/-- C6 fails as stated: a start requested while the status is `starting` (or
`error`) is not rejected — `startServer` only rejects `running` and a
non-`none` update stage, so here it returns success. -/
theorem C6_counterexample :
    (startServer (singleMap "alpha" (alphaState .starting .none)) "alpha" true
      "2026-01-01T00:00:00.000Z").res = .ok () ∧
    (alphaState .starting .none).status ≠ .stopped ∧
    (startServer (singleMap "alpha" (alphaState .error .none)) "alpha" true
      "2026-01-01T00:00:00.000Z").res = .ok () :=
  ⟨rfl, by decide, rfl⟩

/-- C6 (amended): `startServer` is rejected with a state error exactly when
the status is `running` or the update stage is not `none`; requests from
`starting`, `stopping` or `error` (with stage `none`) are not rejected with
a state error. -/
theorem C6_start_gate (m : SMap) (id : String) (s : SState) (dockerOk : Bool)
    (now : String) (hm : m id = some s) :
    ((startServer m id dockerOk now).res = .error .stateErr ↔
      (s.status = .running ∨ s.updateStage ≠ .none)) := by
  unfold startServer updateStatusFn
  rw [hm]
  by_cases h1 : s.status = .running
  · simp [h1]
  · by_cases h2 : s.updateStage ≠ .none
    · simp [h1, h2]
    · cases dockerOk <;> simp [h1, h2, SMap.set]

/-- Witness for C6 (amended) on a server in status `starting`. -/
theorem C6_start_gate_witness :
    singleMap "alpha" (alphaState .starting .none) "alpha"
      = some (alphaState .starting .none) ∧
    ((startServer (singleMap "alpha" (alphaState .starting .none)) "alpha" true
        "2026-01-01T00:00:00.000Z").res = .error .stateErr ↔
      ((alphaState .starting .none).status = .running ∨
        (alphaState .starting .none).updateStage ≠ .none)) :=
  ⟨rfl, C6_start_gate (singleMap "alpha" (alphaState .starting .none)) "alpha"
    (alphaState .starting .none) true "2026-01-01T00:00:00.000Z" rfl⟩

/-! ### Stage/status invariant preservation -/

lemma inv_off_id {M M' : SMap} (h : stageStatusInv M) (id : String)
    (hoff : ∀ j, j ≠ id → M' j = M j)
    (hid : ∀ s', M' id = some s' → s'.updateStage ≠ UpdateStage.none →
      statusOkSet s'.status) :
    stageStatusInv M' := by
  intro j s' hj hst
  by_cases hji : j = id
  · subst hji
    exact hid s' hj hst
  · rw [hoff j hji] at hj
    exact h j s' hj hst

lemma inv_startServer (m : SMap) (h : stageStatusInv m) (id : String) (dockerOk : Bool)
    (now : String) : stageStatusInv (startServer m id dockerOk now).map := by
  unfold startServer updateStatusFn
  cases hm : m id with
  | none => exact h
  | some s =>
    simp only []
    by_cases h1 : s.status = .running
    · rw [if_pos h1]
      exact h
    · rw [if_neg h1]
      by_cases h2 : s.updateStage ≠ UpdateStage.none
      · rw [if_pos h2]
        exact h
      · rw [if_neg h2]
        have h2' : s.updateStage = .none := not_ne_iff.mp h2
        refine inv_off_id h id ?_ ?_
        · intro j hj
          cases dockerOk <;> simp [SMap.set, hj]
        · intro s' hj hst
          cases dockerOk <;> simp [SMap.set] at hj <;> rw [← hj] at hst <;>
            exact absurd h2' hst

lemma inv_importServer (m : SMap) (h : stageStatusInv m) (req : CreateReq)
    (template : Template) (serverId : String) :
    stageStatusInv (importServer m req template serverId).map := by
  unfold importServer
  refine inv_off_id h serverId ?_ ?_
  · intro j hj
    simp [SMap.set, hj]
  · intro s' hj hst
    simp [SMap.set] at hj
    rw [← hj] at hst
    exact absurd rfl hst

lemma inv_deleteServer (m : SMap) (h : stageStatusInv m) (id : String) :
    stageStatusInv (deleteServer m id).map := by
  unfold deleteServer
  cases hm : m id with
  | none => exact h
  | some s =>
    simp only []
    by_cases h1 : s.status = .running
    · rw [if_pos h1]
      exact h
    · rw [if_neg h1]
      refine inv_off_id h id ?_ ?_
      · intro j hj
        simp [SMap.del, hj]
      · intro s' hj hst
        simp [SMap.del] at hj

lemma inv_handleContainerExit (m : SMap) (h : stageStatusInv m) (id : String) :
    stageStatusInv (handleContainerExit m id).1 := by
  unfold handleContainerExit
  cases hm : m id with
  | none => exact h
  | some s =>
    simp only []
    by_cases h1 : (s.status = ServerStatus.running || s.status = ServerStatus.starting) = true
    · rw [if_pos h1]
      refine inv_off_id h id ?_ ?_
      · intro j hj
        simp [SMap.set, hj]
      · intro s' hj hst
        simp [SMap.set] at hj
        rw [← hj]
        exact Or.inr (Or.inr rfl)
    · rw [if_neg h1]
      exact h

lemma inv_acknowledgeCrash (m : SMap) (h : stageStatusInv m) (id : String) :
    stageStatusInv (acknowledgeCrash m id).map := by
  unfold acknowledgeCrash
  cases hm : m id with
  | none => exact h
  | some s =>
    simp only []
    by_cases h1 : s.status ≠ ServerStatus.error
    · rw [if_pos h1]
      exact h
    · rw [if_neg h1]
      refine inv_off_id h id ?_ ?_
      · intro j hj
        simp [SMap.set, hj]
      · intro s' hj hst
        simp [SMap.set] at hj
        rw [← hj]
        exact Or.inr (Or.inl rfl)

lemma inv_stopServer (m : SMap) (h : stageStatusInv m) (id : String)
    (autoBackup backupOk dockerOk : Bool) :
    stageStatusInv (stopServer m id autoBackup backupOk dockerOk).map := by
  unfold stopServer updateStatusFn
  cases hm : m id with
  | none => exact h
  | some s =>
    simp only []
    by_cases h1 : s.status ≠ ServerStatus.running
    · rw [if_pos h1]
      exact h
    · rw [if_neg h1]
      refine inv_off_id h id ?_ ?_
      · intro j hj
        cases autoBackup <;> cases backupOk <;> cases dockerOk <;> simp [SMap.set, hj]
      · intro s' hj hst
        cases autoBackup <;> cases backupOk <;> cases dockerOk <;>
          simp [SMap.set] at hj <;> rw [← hj] <;> simp [statusOkSet]

lemma inv_cancelUpdate (m : SMap) (h : stageStatusInv m) (id : String) :
    stageStatusInv (cancelUpdate m id).map := by
  unfold cancelUpdate saveUpdateStageFn
  cases hm : m id with
  | none => exact h
  | some s =>
    simp only []
    by_cases h1 : s.updateStage = UpdateStage.none
    · rw [if_pos h1]
      exact h
    · rw [if_neg h1]
      refine inv_off_id h id ?_ ?_
      · intro j hj
        simp [SMap.set, hj]
      · intro s' hj hst
        simp [SMap.set] at hj
        rw [← hj]
        exact Or.inr (Or.inl rfl)

lemma inv_applyUpdate (m : SMap) (h : stageStatusInv m) (id : String) (copyOk : Bool) :
    stageStatusInv (applyUpdate m id copyOk).map := by
  unfold applyUpdate saveUpdateStageFn updateStatusFn
  cases hm : m id with
  | none => exact h
  | some s =>
    simp only []
    by_cases h1 : s.updateStage ≠ UpdateStage.initiated
    · rw [if_pos h1]
      exact h
    · rw [if_neg h1]
      refine inv_off_id h id ?_ ?_
      · intro j hj
        cases copyOk <;> simp [SMap.set, hj]
      · intro s' hj hst
        cases copyOk <;> simp [SMap.set] at hj <;> rw [← hj] <;> simp [statusOkSet]

lemma inv_initiateUpdate (m : SMap) (h : stageStatusInv m) (id : String)
    (autoBackup backupOk stopDockerOk preBackupOk : Bool) (backupTs : String) :
    stageStatusInv
      (initiateUpdate m id autoBackup backupOk stopDockerOk preBackupOk backupTs).map := by
  unfold initiateUpdate stopServer saveUpdateStageFn updateStatusFn
  cases hm : m id with
  | none => exact h
  | some s =>
    simp only []
    by_cases h1 : s.updateStage ≠ UpdateStage.none
    · rw [if_pos h1]
      exact h
    · rw [if_neg h1]
      have h1' : s.updateStage = .none := not_ne_iff.mp h1
      by_cases hrun : s.status = ServerStatus.running
      · rw [if_pos hrun]
        have hrun' : (s.status ≠ ServerStatus.running) = False := by
          simp [hrun]
        refine inv_off_id h id ?_ ?_
        · intro j hj
          cases autoBackup <;> cases backupOk <;> cases stopDockerOk <;>
            cases preBackupOk <;> simp [hrun', SMap.set, hj, hm]
        · intro s' hj hst
          cases autoBackup <;> cases backupOk <;> cases stopDockerOk <;>
            cases preBackupOk <;> simp [hrun', SMap.set, hm] at hj <;> rw [← hj] <;>
            simp [statusOkSet]
      · rw [if_neg hrun]
        refine inv_off_id h id ?_ ?_
        · intro j hj
          cases preBackupOk <;> simp [SMap.set, hj, hm]
        · intro s' hj hst
          cases preBackupOk <;> simp [SMap.set, hm] at hj <;> rw [← hj] at hst ⊢
          · exact absurd h1' hst
          · simp [statusOkSet]

/-- C3 fails as stated: `deleteServer` checks only for a `running` status,
never the update stage, so a server in the middle of an update (status
`updating`, stage `initiated`) is deleted without an error. -/
theorem C3_counterexample :
    (alphaState .updating .initiated).updateStage ≠ UpdateStage.none ∧
    (deleteServer (singleMap "alpha" (alphaState .updating .initiated)) "alpha").res
      = .ok () ∧
    (deleteServer (singleMap "alpha" (alphaState .updating .initiated)) "alpha").map
      "alpha" = Option.none :=
  ⟨by decide, rfl, rfl⟩

/-- C3 (amended): while a server's update stage is not `none`, `startServer`
and the restore route are rejected with a state error (leaving the map and
the event trace untouched); `deleteServer` has no such guard (it rejects
only while running, see the counterexample); and the invariant "stage ≠
`none` implies status ∈ {updating, stopped, error}" is preserved by every
orchestrator operation. -/
theorem C3_update_stage_guards :
    (∀ (m : SMap) (id : String) (s : SState) (dockerOk : Bool) (now : String),
      m id = some s → s.updateStage ≠ UpdateStage.none →
        startServer m id dockerOk now = ⟨.error .stateErr, m, []⟩) ∧
    (∀ (m : SMap) (id : String) (s : SState), m id = some s →
      s.updateStage ≠ UpdateStage.none → restoreCheck m id = .error .stateErr) ∧
    (∀ m, stageStatusInv m →
      (∀ id dockerOk now, stageStatusInv (startServer m id dockerOk now).map) ∧
      (∀ id a b c, stageStatusInv (stopServer m id a b c).map) ∧
      (∀ id, stageStatusInv (deleteServer m id).map) ∧
      (∀ id, stageStatusInv (handleContainerExit m id).1) ∧
      (∀ id, stageStatusInv (acknowledgeCrash m id).map) ∧
      (∀ req template serverId, stageStatusInv (importServer m req template serverId).map) ∧
      (∀ id a b c d ts, stageStatusInv (initiateUpdate m id a b c d ts).map) ∧
      (∀ id c, stageStatusInv (applyUpdate m id c).map) ∧
      (∀ id, stageStatusInv (cancelUpdate m id).map)) := by
  refine ⟨?_, ?_, ?_⟩
  · intro m id s dockerOk now hm hst
    unfold startServer
    rw [hm]
    simp only []
    by_cases h1 : s.status = .running
    · rw [if_pos h1]
    · rw [if_neg h1, if_pos hst]
  · intro m id s hm hst
    unfold restoreCheck
    rw [hm]
    simp only []
    by_cases h1 : (s.status = ServerStatus.running || s.status = ServerStatus.starting) = true
    · rw [if_pos h1]
    · rw [if_neg h1, if_pos hst]
  · intro m hinv
    exact ⟨fun id d n => inv_startServer m hinv id d n,
      fun id a b c => inv_stopServer m hinv id a b c,
      fun id => inv_deleteServer m hinv id,
      fun id => inv_handleContainerExit m hinv id,
      fun id => inv_acknowledgeCrash m hinv id,
      fun req template serverId => inv_importServer m hinv req template serverId,
      fun id a b c d ts => inv_initiateUpdate m hinv id a b c d ts,
      fun id c => inv_applyUpdate m hinv id c,
      fun id => inv_cancelUpdate m hinv id⟩

/-- Witness for C3 (amended) on a one-server map mid-update. -/
theorem C3_update_stage_guards_witness :
    singleMap "alpha" (alphaState .updating .initiated) "alpha"
      = some (alphaState .updating .initiated) ∧
    (alphaState .updating .initiated).updateStage ≠ UpdateStage.none ∧
    startServer (singleMap "alpha" (alphaState .updating .initiated)) "alpha" true
      "2026-01-01T00:00:00.000Z"
      = ⟨.error .stateErr, singleMap "alpha" (alphaState .updating .initiated), []⟩ ∧
    restoreCheck (singleMap "alpha" (alphaState .updating .initiated)) "alpha"
      = .error .stateErr ∧
    stageStatusInv (singleMap "alpha" (alphaState .updating .initiated)) ∧
    stageStatusInv
      (cancelUpdate (singleMap "alpha" (alphaState .updating .initiated)) "alpha").map := by
  have hinv0 : stageStatusInv (singleMap "alpha" (alphaState .updating .initiated)) := by
    intro j s hj hst
    unfold singleMap at hj
    by_cases hji : j = "alpha"
    · rw [if_pos hji] at hj
      obtain rfl := Option.some.inj hj
      exact Or.inl rfl
    · rw [if_neg hji] at hj
      exact Option.noConfusion hj
  exact ⟨rfl, by decide,
    C3_update_stage_guards.1 _ "alpha" _ true "2026-01-01T00:00:00.000Z" rfl (by decide),
    C3_update_stage_guards.2.1 _ "alpha" _ rfl (by decide),
    hinv0,
    (C3_update_stage_guards.2.2 _ hinv0).2.2.2.2.2.2.2.2 "alpha"⟩

/-- C4 fails as stated: `initiateUpdate` on a stopped server performs one
status transition (`stopped` to `updating`) but publishes two
`server_status` events for it — one from the internal `updateStatus` helper
and a second explicit broadcast with the `initiated` stage. -/
theorem C4_counterexample :
    statusEvents (initiateUpdate (singleMap "alpha" (alphaState .stopped .none)) "alpha"
        true true true true "2026-01-01T00:00:00.000Z").trace =
      [.statusEvt "alpha" .updating Option.none (some .initiated),
       .statusEvt "alpha" .updating Option.none (some .initiated)] ∧
    (initiateUpdate (singleMap "alpha" (alphaState .stopped .none)) "alpha"
        true true true true "2026-01-01T00:00:00.000Z").map "alpha" =
      some { config := { alphaConfig with updateStage := .initiated },
             status := .updating, startedAt := Option.none,
             updateStage := .initiated,
             updateBackupTimestamp := some "2026-01-01T00:00:00.000Z" } :=
  ⟨by decide, by decide⟩

/-- C4 (amended): on the success paths, each orchestrator transition
publishes one `server_status` event after its persistent side effect, with
two exceptions visible in the traces below: `initiateUpdate` publishes two
`server_status` events for its single transition to `updating`, and
`applyUpdate` publishes an extra stage-change event (status unchanged at
`updating`) before its `stopped` event.  `startServer` and `stopServer`
publish exactly one event per status transition (two transitions each). -/
theorem C4_event_publication :
    (∀ (m : SMap) (id : String) (s : SState) (now : String),
      m id = some s → s.status = .stopped → s.updateStage = .none →
      statusEvents (startServer m id true now).trace =
        [.statusEvt id .starting s.startedAt (some s.updateStage),
         .statusEvt id .running (some now) Option.none]) ∧
    (∀ (m : SMap) (id : String) (s : SState) (ab : Bool),
      m id = some s → s.status = .running →
      statusEvents (stopServer m id ab true true).trace =
        [.statusEvt id .stopping s.startedAt (some s.updateStage),
         .statusEvt id .stopped Option.none Option.none]) ∧
    (∀ (m : SMap) (id : String) (s : SState),
      m id = some s → s.status = .running →
      statusEvents (handleContainerExit m id).2 =
        [.statusEvt id .error Option.none Option.none]) ∧
    (∀ (m : SMap) (id : String) (s : SState),
      m id = some s → s.status = .error →
      statusEvents (acknowledgeCrash m id).trace =
        [.statusEvt id .stopped Option.none Option.none]) ∧
    (∀ (m : SMap) (id : String) (s : SState),
      m id = some s → s.updateStage ≠ UpdateStage.none →
      statusEvents (cancelUpdate m id).trace =
        [.statusEvt id .stopped Option.none (some .none)]) ∧
    (∀ (m : SMap) (id : String) (s : SState) (ts : String),
      m id = some s → s.status = .stopped → s.updateStage = .none →
      (initiateUpdate m id true true true true ts).trace =
        [.backupCall id .preUpdate, .sidecarWrite id .initiated,
         .statusEvt id .updating s.startedAt (some .initiated),
         .statusEvt id .updating Option.none (some .initiated)]) ∧
    (∀ (m : SMap) (id : String) (s : SState),
      m id = some s → s.updateStage = .initiated →
      statusEvents (applyUpdate m id true).trace =
        [.statusEvt id .updating Option.none (some .applying),
         .statusEvt id .stopped Option.none (some .none)]) := by
  refine ⟨?_, ?_, ?_, ?_, ?_, ?_, ?_⟩
  · intro m id s now hm hstop hstage
    unfold startServer updateStatusFn
    rw [hm]
    have h1 : ¬ s.status = .running := by rw [hstop]; exact fun hc => ServerStatus.noConfusion hc
    simp [h1, hstage, SMap.set, statusEvents, List.filter]
  · intro m id s ab hm hrun
    unfold stopServer updateStatusFn
    rw [hm]
    cases ab <;> simp [hrun, SMap.set, statusEvents, List.filter]
  · intro m id s hm hrun
    unfold handleContainerExit
    rw [hm]
    simp [hrun, statusEvents, List.filter]
  · intro m id s hm herr
    unfold acknowledgeCrash
    rw [hm]
    simp [herr, statusEvents, List.filter]
  · intro m id s hm hstage
    unfold cancelUpdate saveUpdateStageFn
    rw [hm]
    simp [hstage, SMap.set, statusEvents, List.filter]
  · intro m id s ts hm hstop hstage
    unfold initiateUpdate stopServer saveUpdateStageFn updateStatusFn
    rw [hm]
    have h1 : ¬ s.status = .running := by rw [hstop]; exact fun hc => ServerStatus.noConfusion hc
    simp [h1, hstage, hm, SMap.set]
  · intro m id s hm hstage
    unfold applyUpdate saveUpdateStageFn updateStatusFn
    rw [hm]
    simp [hstage, hm, SMap.set, statusEvents, List.filter]

/-- Witness for C4 (amended): a stopped server's `initiateUpdate` trace and a
running server's `stopServer` trace, at concrete inputs. -/
theorem C4_event_publication_witness :
    singleMap "alpha" (alphaState .stopped .none) "alpha"
      = some (alphaState .stopped .none) ∧
    (alphaState .stopped .none).status = .stopped ∧
    (alphaState .stopped .none).updateStage = .none ∧
    (initiateUpdate (singleMap "alpha" (alphaState .stopped .none)) "alpha"
        true true true true "2026-01-01T00:00:00.000Z").trace =
      [.backupCall "alpha" .preUpdate, .sidecarWrite "alpha" .initiated,
       .statusEvt "alpha" .updating Option.none (some .initiated),
       .statusEvt "alpha" .updating Option.none (some .initiated)] ∧
    statusEvents (stopServer (singleMap "alpha" alphaRunning) "alpha" true true true).trace =
      [.statusEvt "alpha" .stopping (some "2026-01-01T00:00:00.000Z") (some .none),
       .statusEvt "alpha" .stopped Option.none Option.none] :=
  ⟨rfl, rfl, rfl,
    C4_event_publication.2.2.2.2.2.1 (singleMap "alpha" (alphaState .stopped .none))
      "alpha" (alphaState .stopped .none) "2026-01-01T00:00:00.000Z" rfl rfl rfl,
    C4_event_publication.2.1 (singleMap "alpha" alphaRunning) "alpha" alphaRunning
      true rfl rfl⟩

/-! ### Maintenance DST rule -/

example : dayOfWeek 1970 1 1 = 4 := by decide

example : dayOfWeek 2026 3 1 = 0 := by decide

example : nthSundayDay 2025 3 2 = 9 := by decide

example : nthSundayDay 2025 11 1 = 2 := by decide

example : nthSundayDay 2026 3 2 = 8 := by decide

example : nthSundayDay 2026 11 1 = 1 := by decide

lemma nthSundayDay_bounds (y month n : Nat) (hn : 1 ≤ n) :
    7 * n - 6 ≤ nthSundayDay y month n ∧ nthSundayDay y month n ≤ 7 * n := by
  unfold nthSundayDay
  simp only []
  have hw : dayOfWeek y month 1 < 7 := by
    unfold dayOfWeek
    have h1 := Int.emod_lt_of_pos (daysFromCivil y month 1 + 4) (by decide : (0:Int) < 7)
    have h2 := Int.emod_nonneg (daysFromCivil y month 1 + 4) (by decide : (7:Int) ≠ 0)
    exact (Int.toNat_lt h2).mpr h1
  by_cases h0 : dayOfWeek y month 1 = 0
  · rw [if_pos h0]
    omega
  · rw [if_neg h0]
    omega

/-- C8 fails as stated on the DST transition days: on the spring-forward
Sunday (2026-03-08) the re-armed task fires at 09:00 UTC, which is 05:00
Eastern, while 04:00 Eastern is 08:00 UTC; on the fall-back Sunday
(2026-11-01) it fires at 08:00 UTC, which is 03:00 Eastern, while 04:00
Eastern is 09:00 UTC. -/
theorem C8_counterexample :
    nthSundayDay 2026 3 2 = 8 ∧
    fireHourUTC 2026 3 8 = 9 ∧
    wallClock4amEasternUTCHour 2026 3 8 = 8 ∧
    nthSundayDay 2026 11 1 = 1 ∧
    fireHourUTC 2026 11 1 = 8 ∧
    wallClock4amEasternUTCHour 2026 11 1 = 9 := by decide

/-- C8 (amended): on every calendar date other than the second Sunday of
March and the first Sunday of November, the UTC hour at which the re-armed
maintenance task fires equals 04:00 wall-clock America/Eastern; on the two
transition days it is off by one hour (see the counterexample). -/
theorem C8_maintenance_hour (y month day : Nat) (hv : validDate month day)
    (hspring : ¬(month = 3 ∧ day = nthSundayDay y 3 2))
    (hfall : ¬(month = 11 ∧ day = nthSundayDay y 11 1)) :
    fireHourUTC y month day = wallClock4amEasternUTCHour y month day := by
  obtain ⟨hm1, hm2, hd1, hd2⟩ := hv
  obtain ⟨hs1, hs2⟩ := nthSundayDay_bounds y 3 2 (by decide)
  obtain ⟨hf1, hf2⟩ := nthSundayDay_bounds y 11 1 (by decide)
  have hsp := not_and_or.mp hspring
  have hfa := not_and_or.mp hfall
  have key : isEDTat y month day 0 = isEDTat y month day 8 := by
    unfold isEDTat instVal
    have hA : ((3 * 32 + nthSundayDay y 3 2) * 24 + 7 ≤ (month * 32 + day) * 24 + 0) ↔
        ((3 * 32 + nthSundayDay y 3 2) * 24 + 7 ≤ (month * 32 + day) * 24 + 8) := by
      constructor
      · omega
      · intro hle
        by_contra hlt
        push_neg at hlt
        rcases hsp with h | h <;> omega
    have hB : ((month * 32 + day) * 24 + 0 < (11 * 32 + nthSundayDay y 11 1) * 24 + 6) ↔
        ((month * 32 + day) * 24 + 8 < (11 * 32 + nthSundayDay y 11 1) * 24 + 6) := by
      constructor
      · intro hlt
        by_contra hge
        push_neg at hge
        rcases hfa with h | h <;> omega
      · omega
    rw [decide_eq_decide.mpr hA, decide_eq_decide.mpr hB]
  unfold fireHourUTC wallClock4amEasternUTCHour
  rw [key]

/-- Witness for C8 (amended) at 2026-07-04, an ordinary summer date. -/
theorem C8_maintenance_hour_witness :
    validDate 7 4 ∧
    ¬(7 = 3 ∧ 4 = nthSundayDay 2026 3 2) ∧
    ¬(7 = 11 ∧ 4 = nthSundayDay 2026 11 1) ∧
    fireHourUTC 2026 7 4 = wallClock4amEasternUTCHour 2026 7 4 :=
  ⟨by decide, by decide, by decide,
    C8_maintenance_hour 2026 7 4 (by decide) (by decide) (by decide)⟩

end Garcon
